import Mathlib

/-
Verification development for the tpmb-android sources.

Shallow embedding of:
  * SecurityManager (src/utils/security_manager.py): the sliding-window rate
    limiter, the token vault (the external Fernet AEAD is modelled
    symbolically), and the token format validator.
  * ResilientTimeHandler and ResilientScheduler (src/utils/time_handler.py).
  * AndroidTelegramBot.send_messages_with_retry (src/main.py).

Python float timestamps (time.time()) are modelled as integers (whole
seconds): the window, offset and age arithmetic in the source uses only
ordering and differences, which the integer model preserves exactly.
-/

/-! ## Rate limiter (SecurityManager._check_rate_limit, security_manager.py lines 84-104)

The source keeps a dict mapping an operation name to the list of attempt
timestamps, appended in call order.  Each check first prunes entries with
`now - timestamp >= window_seconds`, then refuses (without recording) when
the pruned list already holds `max_attempts` entries, and otherwise appends
the current time and allows. -/

/-- Lookup of `self._rate_limiter[operation]`; a missing key behaves as the
empty list (the source inserts `[]` for a missing key before reading it). -/
def rlLookup : List (String × List ℤ) → String → List ℤ
  | [], _ => []
  | (k, v) :: rest, op => if k = op then v else rlLookup rest op

/-- Assignment `self._rate_limiter[operation] = ts` on the association-list
model of the dict. -/
def rlUpdate : List (String × List ℤ) → String → List ℤ → List (String × List ℤ)
  | [], op, ts => [(op, ts)]
  | (k, v) :: rest, op, ts =>
    if k = op then (op, ts) :: rest else (k, v) :: rlUpdate rest op ts

/-- Body of `_check_rate_limit` acting on one operation's timestamp list:
prune entries outside the trailing window, refuse when the budget is
exhausted, otherwise record the current attempt.  Returns the verdict and
the new timestamp list. -/
def checkRateList (now : ℤ) (maxAttempts : ℕ) (window : ℤ) (ts : List ℤ) :
    Bool × List ℤ :=
  let recent := ts.filter (fun t => now - t < window)
  if maxAttempts ≤ recent.length then (false, recent)
  else (true, recent ++ [now])

/-- `SecurityManager._check_rate_limit(operation, max_attempts, window_seconds)`
at the instant `now`, acting on the whole per-operation dict. -/
def check_rate_limit (rl : List (String × List ℤ)) (op : String)
    (maxAttempts : ℕ) (window : ℤ) (now : ℤ) : Bool × List (String × List ℤ) :=
  let r := checkRateList now maxAttempts window (rlLookup rl op)
  (r.1, rlUpdate rl op r.2)

/-! ## Token vault (SecurityManager.encrypt_token / decrypt_token,
security_manager.py lines 29-34, 64-82, 106-160)

The `cryptography` library's Fernet cipher is external to the repository, so
it is modelled symbolically as an authenticated encryption scheme: a sealed
blob decrypts (to the exact payload) only under the key that produced it,
and a blob in which any byte has been modified fails authentication.  The
cipher key is derived once at construction with PBKDF2 from the instance's
master key and a fresh random salt (`_init_encryption`); the derivation is
modelled as the pair of its inputs. -/

/-- Key produced by `_init_encryption`: PBKDF2-HMAC-SHA256 over the master
key and the per-instance random salt, modelled symbolically as the pair of
its inputs. -/
structure FKey where
  master : String
  salt : ℕ
deriving DecidableEq

/-- The JSON metadata dict built by `encrypt_token` (all six fields are
always written, so the required-field presence check in `decrypt_token`
holds by construction). -/
structure TokenMeta where
  token : String
  encrypted_at : ℤ
  salt : ℕ
  algorithm : String
  iterations : ℕ
  version : String
deriving DecidableEq

/-- Symbolic Fernet blob: either a genuine ciphertext sealed under a key, or
a blob obtained from another blob by modifying the byte at `pos` to
`newByte` (tampering). -/
inductive Envelope where
  | sealed (key : FKey) (payload : TokenMeta)
  | corrupted (orig : Envelope) (pos : ℕ) (newByte : ℕ)
deriving DecidableEq

/-- Fernet encryption under a fixed key. -/
def fernetEncrypt (k : FKey) (m : TokenMeta) : Envelope := .sealed k m

/-- Fernet decryption: succeeds exactly on a genuine ciphertext sealed under
the same key; any tampered blob fails the HMAC authentication check. -/
def fernetDecrypt (k : FKey) : Envelope → Option TokenMeta
  | .sealed k' m => if k' = k then some m else none
  | .corrupted _ _ _ => none

/-- The exception type raised by the vault (`SecurityError`). -/
structure SecurityErr where
  msg : String
deriving DecidableEq

/-- State of a `SecurityManager` instance: the master key (random per
instance unless supplied), the random salt drawn in `_init_encryption`, and
the rate-limiter dict. -/
structure SecurityManager where
  master_key : String
  salt : ℕ
  rate_limiter : List (String × List ℤ)
deriving DecidableEq

/-- The cipher key fixed at construction (`self.cipher_suite`). -/
def smKey (sm : SecurityManager) : FKey := ⟨sm.master_key, sm.salt⟩

/-- `SecurityManager.encrypt_token`: consult the rate limiter (budget 10,
window 300 s); on refusal the raised error is re-wrapped by the except
clause into "Encryption operation failed".  Otherwise build the metadata
dict and seal it under the instance cipher key. -/
def encrypt_token (sm : SecurityManager) (now : ℤ) (token : String) :
    Except SecurityErr (Envelope × SecurityManager) :=
  let r := check_rate_limit sm.rate_limiter "encrypt_token" 10 300 now
  if r.1 then
    let meta : TokenMeta := ⟨token, now, sm.salt, "PBKDF2-HMAC-SHA256", 600000, "2.0"⟩
    .ok (fernetEncrypt (smKey sm) meta, { sm with rate_limiter := r.2 })
  else .error ⟨"Encryption operation failed"⟩

/-- `SecurityManager.decrypt_token`: consult the rate limiter (budget 20,
window 300 s), then decrypt with the instance cipher key fixed at
construction — the salt stored inside the envelope is never used to
re-derive a key.  Every failure (rate refusal, authentication failure,
malformed blob) is caught and re-raised as the single message
"Decryption operation failed".  The token-age and algorithm checks in the
source only log warnings and never change the result. -/
def decrypt_token (sm : SecurityManager) (now : ℤ) (blob : Envelope) :
    Except SecurityErr (String × SecurityManager) :=
  let r := check_rate_limit sm.rate_limiter "decrypt_token" 20 300 now
  if r.1 then
    match fernetDecrypt (smKey sm) blob with
    | some meta => .ok (meta.token, { sm with rate_limiter := r.2 })
    | none => .error ⟨"Decryption operation failed"⟩
  else .error ⟨"Decryption operation failed"⟩

/-! ## Token format validator (SecurityManager._validate_token_format,
security_manager.py lines 258-292) -/

/-- Python `str.split(sep)` for a one-character separator. -/
def splitOnChar (sep : Char) : List Char → List (List Char)
  | [] => [[]]
  | c :: rest =>
    let r := splitOnChar sep rest
    if c = sep then [] :: r
    else
      match r with
      | [] => [[c]]
      | h :: t => (c :: h) :: t

/-- Digit-string to number, requiring a nonempty all-digit input. -/
def parseNatDigits (l : List Char) : Option ℕ :=
  if l.isEmpty then none
  else if l.all (fun c => c.isDigit) then
    some (l.foldl (fun n c => 10 * n + (c.toNat - '0'.toNat)) 0)
  else none

/-- Model of Python `int(s)` on the strings the validator can meet: an
optional sign followed by decimal digits.  (Python additionally strips
whitespace and allows underscores between digits; no claim in this
development depends on those inputs, which can only widen acceptance of
the bot-id prefix.) -/
def pyIntParse (l : List Char) : Option ℤ :=
  match l with
  | '-' :: rest => (parseNatDigits rest).map (fun n => -(n : ℤ))
  | '+' :: rest => (parseNatDigits rest).map (fun n => (n : ℤ))
  | _ => (parseNatDigits l).map (fun n => (n : ℤ))

/-- Character class of the hash regexp `[A-Za-z0-9_-]`. -/
def allowedHashChar (c : Char) : Bool :=
  ('A' ≤ c && c ≤ 'Z') || ('a' ≤ c && c ≤ 'z') || ('0' ≤ c && c ≤ '9') ||
    c = '_' || c = '-'

/-- The sixteen characters tested by the suspicious-pattern check. -/
def hexRunChars : List Char := "0123456789abcdef".data

/-- Whether the list starts with `n` copies of `c`. -/
def startsWithRep (c : Char) : ℕ → List Char → Bool
  | 0, _ => true
  | _ + 1, [] => false
  | n + 1, x :: xs => x = c && startsWithRep c n xs

/-- Python substring test `(c * n) in token`: some tail of the list starts
with `n` copies of `c`. -/
def hasRepRun (c : Char) (n : ℕ) : List Char → Bool
  | [] => startsWithRep c n []
  | x :: xs => startsWithRep c n (x :: xs) || hasRepRun c n xs

/-- `SecurityManager._validate_token_format`, check for check:
minimum length 45; a ':' must occur; the split must give exactly two parts;
the prefix must parse as an integer in (0, 9999999999]; the hash part must
be 35-50 characters over `[A-Za-z0-9_-]` (the length test and the anchored
regexp of the source); finally the whole token must not contain ten
consecutive copies of any character from '0123456789abcdef'. -/
def validate_token_format (token : List Char) : Bool :=
  if token.length < 45 then false
  else if !(token.any (fun c => c = ':')) then false
  else
    match splitOnChar ':' token with
    | [p0, p1] =>
      match pyIntParse p0 with
      | none => false
      | some bot_id =>
        if bot_id ≤ 0 || 9999999999 < bot_id then false
        else if p1.length < 35 || 50 < p1.length then false
        else if !(p1.all allowedHashChar) then false
        else if hexRunChars.any (fun c => hasRepRun c 10 token) then false
        else true
    | _ => false

/-- The validator on a Lean string. -/
def validateTokenStr (s : String) : Bool := validate_token_format s.data

/-! ## Time handler (ResilientTimeHandler, time_handler.py lines 42-48,
118-150, 172-186)

State visible to the claims: `last_sync` (None before any successful sync)
and `offset` (initially 0.0).  `sync_time` consumes the result of
`get_ntp_time` (None when no server answered); `get_current_time` consumes
the current local clock reading. -/

/-- The sync-relevant fields of a `ResilientTimeHandler`. -/
structure TimeState where
  last_sync : Option ℤ
  offset : ℤ
deriving DecidableEq

/-- Constructor state: `self.last_sync = None`, `self.offset = 0.0`. -/
def initTimeState : TimeState := ⟨none, 0⟩

/-- `ResilientTimeHandler.sync_time` given the value returned by
`get_ntp_time` (`none` models every server failing or no network), the local
clock `localNow` read by `time.time()`, and the wall-clock stamp recorded
into `last_sync`.  On `none` it returns False before touching any state;
otherwise it records `offset = ntp_time - current_local`, stamps
`last_sync`, and returns True (the drift check in between only logs). -/
def sync_time (st : TimeState) (ntp : Option ℤ) (localNow stampNow : ℤ) :
    Bool × TimeState :=
  match ntp with
  | none => (false, st)
  | some nt => (true, { last_sync := some stampNow, offset := nt - localNow })

/-- `ResilientTimeHandler.get_current_time` given the local clock reading:
plain local time while `last_sync` is None, otherwise local time plus the
recorded offset. -/
def get_current_time (st : TimeState) (localNow : ℤ) : ℤ :=
  match st.last_sync with
  | none => localNow
  | some _ => localNow + st.offset

/-! ## Scheduler retry wrapper (ResilientScheduler.add_job / wrapped_func,
time_handler.py lines 335-363)

For a job registered with `retry_on_failure`, the wrapper catches a failure
of the callback, reads `wrapped_func._retry_count` (default 0), and — while
it is below 3 — increments the attribute, sleeps, and calls itself again.
The attribute lives on the wrapped callable itself and is never reset, so
it threads from one scheduled firing into the next.  A firing is modelled
by `wrappedFiring`: `fails i` tells whether the i-th callback call inside
this firing raises; the result is the new `_retry_count` attribute, whether
the firing finally succeeded, and how many callback calls it made. -/

/-- One run of `wrapped_func` with the failure pattern `fails`, current
attribute value `attr`, and call index `i`; `fuel` bounds the recursion
(depth is at most 4 because the attribute is only incremented while
below 3, so fuel 4 is never exhausted from any reachable state). -/
def wrappedGo (fails : ℕ → Bool) : ℕ → ℕ → ℕ → ℕ × Bool × ℕ
  | 0, attr, _ => (attr, false, 0)
  | fuel + 1, attr, i =>
    if fails i then
      if attr < 3 then
        let r := wrappedGo fails fuel (attr + 1) (i + 1)
        (r.1, r.2.1, r.2.2 + 1)
      else (attr, false, 1)
    else (attr, true, 1)

/-- One scheduled firing of the wrapped callback, entered with the
persistent `_retry_count` attribute value `attr`. -/
def wrappedFiring (fails : ℕ → Bool) (attr : ℕ) : ℕ × Bool × ℕ :=
  wrappedGo fails 4 attr 0

/-- Two consecutive scheduled firings of the same job: the `_retry_count`
attribute left by the first firing is the value the second firing starts
from, exactly as the attribute persists on `wrapped_func` in the source. -/
def twoFirings (fails₁ fails₂ : ℕ → Bool) (attr : ℕ) :
    (ℕ × Bool × ℕ) × (ℕ × Bool × ℕ) :=
  let r₁ := wrappedFiring fails₁ attr
  (r₁, wrappedFiring fails₂ r₁.1)

/-! ## Broadcast dispatch (AndroidTelegramBot.send_messages_with_retry,
main.py lines 283-315)

The injected success/failure pattern `pat g k` tells whether the send to
target `g` with `retry_count = k` succeeds.  The random message choice is
modelled by an index `pick` into the pool.  The source only tallies
`successful_sends`; the report readings of the spec (attempted, succeeded,
failed, per-target results) are assembled from the same loop. -/

/-- The inner `while retry_count < max_retries` loop for one target:
returns whether a send succeeded and the number of attempts consumed
(`retry_count + 1` at the break on success, `max_retries` on exhaustion). -/
def trySend (attemptOk : ℕ → Bool) : ℕ → ℕ → Bool × ℕ
  | 0, rc => (false, rc)
  | fuel + 1, rc =>
    if attemptOk rc then (true, rc + 1) else trySend attemptOk fuel (rc + 1)

/-- Outcome recorded for one target. -/
structure TargetResult where
  target : String
  ok : Bool
  attempts : ℕ
deriving DecidableEq

/-- One target's body of the `for group_id in self.groups` loop, with a
fresh `retry_count = 0` budget. -/
def sendToTarget (pat : String → ℕ → Bool) (maxRetries : ℕ) (g : String) :
    TargetResult :=
  let r := trySend (pat g) maxRetries 0
  ⟨g, r.1, r.2⟩

/-- Aggregate report of a dispatch cycle. -/
structure DispatchReport where
  attempted : ℕ
  succeeded : ℕ
  failed : ℕ
  per_target : List TargetResult
deriving DecidableEq

/-- Result of `send_messages_with_retry`: the report, the message chosen
for the cycle, and whether the empty-configuration warning was logged. -/
structure DispatchOutcome where
  report : DispatchReport
  chosenMessage : Option String
  warnedEmpty : Bool
deriving DecidableEq

/-- `AndroidTelegramBot.send_messages_with_retry`: if either the message
pool or the target list is empty, log a warning and return with no sends;
otherwise pick one message for the whole cycle and process every target in
order, each with its own retry budget. -/
def send_messages_with_retry (pat : String → ℕ → Bool)
    (messages groups : List String) (maxRetries : ℕ) (pick : ℕ) :
    DispatchOutcome :=
  if messages.isEmpty || groups.isEmpty then
    ⟨⟨0, 0, 0, []⟩, none, true⟩
  else
    let msg := messages.getD (pick % messages.length) ""
    let results := groups.map (sendToTarget pat maxRetries)
    ⟨⟨results.length, results.countP (fun r => r.ok),
      results.countP (fun r => !r.ok), results⟩, some msg, false⟩

lemma countP_add_countP_not {α : Type} (p : α → Bool) (l : List α) :
    l.countP p + l.countP (fun a => !p a) = l.length := by
  induction l with
  | nil => simp
  | cons a l ih =>
    simp only [List.countP_cons, List.length_cons]
    cases h : p a <;> simp [h] <;> omega

/-- C4: before any successful sync (`last_sync` unset) `get_current_time`
returns exactly the local time; immediately after a sync that recorded
offset `Δ = nt - local₀`, `get_current_time` returns local time plus `Δ`
(exactly, in the integer model). -/
theorem c4_time_correction (st : TimeState) (nt local₀ stamp local₁ : ℤ)
    (st' : TimeState) (hpre : st.last_sync = none)
    (hsync : sync_time st (some nt) local₀ stamp = (true, st')) :
    get_current_time st local₁ = local₁ ∧
    get_current_time st' local₁ = local₁ + (nt - local₀) := by
  constructor
  · simp [get_current_time, hpre]
  · simp [sync_time] at hsync
    subst hsync
    simp [get_current_time]

/-- Witness for C4 at a fresh handler, a sync with reference time 5 read at
local time 2, and a later query at local time 10. -/
theorem c4_witness :
    get_current_time initTimeState 10 = 10 ∧
    get_current_time ⟨some 7, 5 - 2⟩ 10 = 10 + (5 - 2) :=
  c4_time_correction initTimeState 5 2 7 10 ⟨some 7, 5 - 2⟩ (by decide) (by decide)

/-- C9: whenever `sync_time` returns false (no reference time could be
obtained), the synchronizer state is unchanged — `offset` and `last_sync`
keep their values, and every subsequent corrected-time query behaves exactly
as before the failed sync. -/
theorem c9_failed_sync_preserves_state (st : TimeState) (ntp : Option ℤ)
    (l s : ℤ) (hfail : (sync_time st ntp l s).1 = false) :
    (sync_time st ntp l s).2 = st ∧
    ∀ q : ℤ, get_current_time ((sync_time st ntp l s).2) q = get_current_time st q := by
  cases ntp with
  | none => simp [sync_time]
  | some nt => simp [sync_time] at hfail

/-- Witness for C9: a failed sync on the fresh handler state. -/
theorem c9_witness :
    (sync_time initTimeState none 5 7).2 = initTimeState ∧
    ∀ q : ℤ, get_current_time ((sync_time initTimeState none 5 7).2) q =
      get_current_time initTimeState q :=
  c9_failed_sync_preserves_state initTimeState none 5 7 (by decide)

/-- C6: whenever the message pool or the target list is empty,
`send_messages_with_retry` performs no sends, logs the warning, and returns
the zeroed report with an empty per-target list. -/
theorem c6_empty_config_noop (pat : String → ℕ → Bool)
    (messages groups : List String) (maxR pick : ℕ)
    (h : messages = [] ∨ groups = []) :
    send_messages_with_retry pat messages groups maxR pick =
      ⟨⟨0, 0, 0, []⟩, none, true⟩ := by
  rcases h with h | h <;> subst h <;> simp [send_messages_with_retry]

/-- Witness for C6: an empty message pool with one configured target. -/
theorem c6_witness :
    send_messages_with_retry (fun _ _ => true) [] ["A"] 3 0 =
      ⟨⟨0, 0, 0, []⟩, none, true⟩ :=
  c6_empty_config_noop _ _ _ _ _ (Or.inl rfl)

/-- C5 fails on the code: the `_retry_count` attribute persists on the
wrapped callable, so after a firing that exhausts its retries (leaving the
attribute at 3) a second firing whose callback fails once and would succeed
on retry instead terminates at once with a failure — whereas a counter
starting at zero every firing would retry and succeed. -/
theorem c5_counterexample :
    (twoFirings (fun _ => true) (fun i => decide (i = 0)) 0).2 = (3, false, 1) ∧
    wrappedFiring (fun i => decide (i = 0)) 0 = (1, true, 2) ∧
    (twoFirings (fun _ => true) (fun i => decide (i = 0)) 0).2 ≠
      wrappedFiring (fun i => decide (i = 0)) 0 := by decide

/-- C5 (amended): the retry counter of a `retry_on_failure` job is stored on
the wrapped callable and is never reset between scheduled firings.  A firing
whose callback always fails makes 4 calls and leaves the counter at 3;
thereafter every firing whose first callback call fails performs no retry at
all and records a terminal failure after a single call. -/
theorem c5_retry_counter_persists (f₂ : ℕ → Bool) (h : f₂ 0 = true) :
    (twoFirings (fun _ => true) f₂ 0).1 = (3, false, 4) ∧
    (twoFirings (fun _ => true) f₂ 0).2 = (3, false, 1) := by
  have h1 : wrappedFiring (fun _ => true) 0 = (3, false, 4) := by decide
  refine ⟨by simpa [twoFirings] using h1, ?_⟩
  simp [twoFirings, h1, wrappedFiring, wrappedGo, h]

/-- Witness for C5 (amended) at a second firing that fails on every call
index (its first call fails, so the exhausted counter suppresses all
retries). -/
theorem c5_witness :
    (twoFirings (fun _ => true) (fun i => decide (0 < i + 1)) 0).1 = (3, false, 4) ∧
    (twoFirings (fun _ => true) (fun i => decide (0 < i + 1)) 0).2 = (3, false, 1) :=
  c5_retry_counter_persists (fun i => decide (0 < i + 1)) (by decide)

/-- C10: the token format validator rejects any token containing a run of
10 consecutive identical characters drawn from '0123456789abcdef', whatever
the rest of the token looks like (in particular even when every other rule
is satisfied). -/
theorem c10_hex_run_rejected (token : List Char) (c : Char)
    (hc : c ∈ hexRunChars) (hrun : hasRepRun c 10 token = true) :
    validate_token_format token = false := by
  cases hv : validate_token_format token with
  | false => rfl
  | true =>
    exfalso
    have hany : hexRunChars.any (fun c => hasRepRun c 10 token) = true :=
      List.any_eq_true.mpr ⟨c, hc, hrun⟩
    unfold validate_token_format at hv
    repeat split at hv
    all_goals simp_all
    obtain ⟨-, hv⟩ := hv
    split at hv
    · split at hv <;> simp_all
    · simp_all

/-- Witness for C10: a token satisfying every other rule (length 45, one
':', bot id in range, 35-character suffix of allowed characters) that
contains ten consecutive '0' characters. -/
theorem c10_witness :
    validate_token_format ("123456789:AAAAAAAAAAAAAAAAAAAAAAAAA0000000000".data) = false :=
  c10_hex_run_rejected _ '0' (by decide) (by decide)

lemma trySend_congr (f g : ℕ → Bool) (h : ∀ k, f k = g k) :
    ∀ fuel rc, trySend f fuel rc = trySend g fuel rc := by
  intro fuel
  induction fuel with
  | zero => intro rc; rfl
  | succ n ih => intro rc; simp only [trySend, h rc, ih (rc + 1)]

lemma trySend_allFail (f : ℕ → Bool) :
    ∀ fuel rc, (∀ k, k < rc + fuel → f k = false) →
      trySend f fuel rc = (false, rc + fuel) := by
  intro fuel
  induction fuel with
  | zero => intro rc _; simp [trySend]
  | succ n ih =>
    intro rc h
    have h0 : f rc = false := h rc (by omega)
    simp only [trySend, h0, Bool.false_eq_true, if_false]
    rw [ih (rc + 1) (fun k hk => h k (by omega))]
    congr 1
    omega

/-- C2: with a nonempty message pool, a dispatch cycle over any target list
and any injected per-target success/failure pattern yields
`succeeded + failed = N`; the recorded per-target list is exactly the map of
the per-target send over the targets in order (so iteration continues past
failures), each target's outcome is a function of its own pattern alone
(changing other targets' outcomes changes nothing), and a target whose
pattern fails on every attempt below the budget is recorded as failed with
`maxRetries` attempts. -/
theorem c2_dispatch_partition (pat : String → ℕ → Bool)
    (messages groups : List String) (maxR pick : ℕ) (hmsg : messages ≠ []) :
    (send_messages_with_retry pat messages groups maxR pick).report.succeeded +
      (send_messages_with_retry pat messages groups maxR pick).report.failed =
      groups.length ∧
    (send_messages_with_retry pat messages groups maxR pick).report.per_target =
      groups.map (sendToTarget pat maxR) ∧
    (∀ pat' : String → ℕ → Bool, ∀ g : String, (∀ k, pat' g k = pat g k) →
      sendToTarget pat' maxR g = sendToTarget pat maxR g) ∧
    (∀ g : String, (∀ k, k < maxR → pat g k = false) →
      (sendToTarget pat maxR g).ok = false ∧
      (sendToTarget pat maxR g).attempts = maxR) := by
  have hm : messages.isEmpty = false := by simpa [List.isEmpty_iff] using hmsg
  refine ⟨?_, ?_, ?_, ?_⟩
  · by_cases hg : groups.isEmpty
    · have hgnil : groups = [] := by simpa [List.isEmpty_iff] using hg
      subst hgnil
      simp [send_messages_with_retry, hm]
    · have hg' : groups.isEmpty = false := by
        cases h : groups.isEmpty
        · rfl
        · exact absurd h hg
      simp only [send_messages_with_retry, hm, hg', Bool.or_self, Bool.false_or,
        Bool.false_eq_true, if_false]
      rw [countP_add_countP_not]
      simp
  · by_cases hg : groups.isEmpty
    · have hgnil : groups = [] := by simpa [List.isEmpty_iff] using hg
      subst hgnil
      simp [send_messages_with_retry, hm]
    · have hg' : groups.isEmpty = false := by
        cases h : groups.isEmpty
        · rfl
        · exact absurd h hg
      simp [send_messages_with_retry, hm, hg']
  · intro pat' g hk
    unfold sendToTarget
    rw [trySend_congr (pat' g) (pat g) hk]
  · intro g h
    unfold sendToTarget
    rw [trySend_allFail (pat g) maxR 0 (fun k hk => h k (by omega))]
    constructor
    · rfl
    · simp

/-- Witness for C2 on the spec's end-to-end scenario: targets A, B, C where
A succeeds at once, B succeeds on the third attempt, C always fails. -/
theorem c2_witness :
    (send_messages_with_retry
        (fun g k => (decide (g = "A") && decide (k = 0)) ||
          (decide (g = "B") && decide (k = 2)))
        ["hi"] ["A", "B", "C"] 3 0).report.succeeded +
      (send_messages_with_retry
        (fun g k => (decide (g = "A") && decide (k = 0)) ||
          (decide (g = "B") && decide (k = 2)))
        ["hi"] ["A", "B", "C"] 3 0).report.failed =
      (["A", "B", "C"] : List String).length :=
  (c2_dispatch_partition _ ["hi"] ["A", "B", "C"] 3 0 (by decide)).1

/-- C7: the validator accepts "123456789:" followed by 35 'A' characters;
it rejects "abc:xyz", rejects every token containing no ':' character, and
rejects every token whose suffix after the single ':' is shorter than 35
characters. -/
theorem c7_token_format_cases :
    validateTokenStr "123456789:AAAAAAAAAAAAAAAAAAAAAAAAAAAAAAAAAAA" = true ∧
    validateTokenStr "abc:xyz" = false ∧
    (∀ t : List Char, ':' ∉ t → validate_token_format t = false) ∧
    (∀ t p0 p1 : List Char, splitOnChar ':' t = [p0, p1] → p1.length < 35 →
      validate_token_format t = false) := by
  refine ⟨by decide, by decide, ?_, ?_⟩
  · intro t h
    have hany : t.any (fun c => c = ':') = false := by
      rw [List.any_eq_false]
      intro x hx
      simp only [decide_eq_true_eq]
      intro he
      exact h (he ▸ hx)
    unfold validate_token_format
    split
    · rfl
    · simp [hany]
  · intro t p0 p1 hsplit hlen
    unfold validate_token_format
    split
    · rfl
    split
    · rfl
    rw [hsplit]
    cases hp : pyIntParse p0 with
    | none => simp [hp]
    | some bid => simp [hp, hlen]

/-- Witness for C7: a token whose suffix has only 20 characters is
rejected. -/
theorem c7_witness :
    validate_token_format ("123456789:AAAAAAAAAAAAAAAAAAAA".data) = false :=
  (c7_token_format_cases).2.2.2 _ ("123456789".data) ("AAAAAAAAAAAAAAAAAAAA".data)
    (by decide) (by decide)

lemma chain_head_min : ∀ (l : List ℤ) (e : ℤ), l.Chain' (· ≤ ·) →
    l.head? = some e → ∀ t ∈ l, e ≤ t := by
  intro l
  induction l with
  | nil => intro e _ he; simp at he
  | cons a l ih =>
    intro e hch he t ht
    simp only [List.head?_cons, Option.some.injEq] at he
    subst he
    rcases List.mem_cons.mp ht with rfl | ht'
    · exact le_refl t
    · cases l with
      | nil => simp at ht'
      | cons b l' =>
        have hab : a ≤ b := (List.chain'_cons.mp hch).1
        have hbt : b ≤ t := ih b (List.chain'_cons.mp hch).2 rfl t ht'
        omega

lemma length_filter_lt_of_mem_false {α : Type} (p : α → Bool) (l : List α)
    (a : α) (ha : a ∈ l) (hpa : p a = false) :
    (l.filter p).length < l.length := by
  induction l with
  | nil => simp at ha
  | cons b l ih =>
    rcases List.mem_cons.mp ha with rfl | ha'
    · have := List.length_filter_le p l
      simp [List.filter_cons, hpa]
      omega
    · by_cases hb : p b
      · have := ih ha'
        simp [List.filter_cons, hb]
        omega
      · have := List.length_filter_le p l
        simp only [List.filter_cons, Bool.not_eq_true] at *
        simp [hb]
        omega

/-- C3: with `max_attempts = M` recorded timestamps, all recorded in
nondecreasing order and with the (M+1)-th check arriving within `W` seconds
of the earliest recorded attempt, `_check_rate_limit` returns false and
records nothing (the stored list is only re-written unchanged); once `W`
seconds have elapsed since the earliest recorded attempt, a subsequent check
returns true again. -/
theorem c3_rate_limit_window (rl : List (String × List ℤ)) (op : String)
    (M : ℕ) (W now now₂ : ℤ)
    (hM : 0 < M)
    (hlen : (rlLookup rl op).length = M)
    (hchain : (rlLookup rl op).Chain' (· ≤ ·))
    (hhead : now - (rlLookup rl op).headI < W)
    (hpassed : W ≤ now₂ - (rlLookup rl op).headI) :
    check_rate_limit rl op M W now = (false, rlUpdate rl op (rlLookup rl op)) ∧
    (check_rate_limit rl op M W now₂).1 = true := by
  set ts := rlLookup rl op with hts
  obtain ⟨e, rest, hcons⟩ : ∃ e rest, ts = e :: rest := by
    cases hc : ts with
    | nil => rw [hc] at hlen; simp at hlen; omega
    | cons x xs => exact ⟨x, xs, rfl⟩
  have hhe : ts.head? = some e := by rw [hcons]; rfl
  have hheadI : ts.headI = e := by rw [hcons]; rfl
  have hemem : e ∈ ts := by rw [hcons]; exact List.mem_cons_self _ _
  rw [hheadI] at hhead hpassed
  have hwin : ∀ t ∈ ts, now - t < W := by
    intro t ht
    have h1 : e ≤ t := chain_head_min ts e hchain hhe t ht
    omega
  constructor
  · have hfil : ts.filter (fun t => now - t < W) = ts :=
      List.filter_eq_self.mpr (by intro a ha; simpa using hwin a ha)
    simp [check_rate_limit, checkRateList, hfil, hlen]
  · have hfail : (fun t => decide (now₂ - t < W)) e = false := by
      simp only [decide_eq_false_iff_not]
      omega
    have hlt : (ts.filter (fun t => now₂ - t < W)).length < ts.length :=
      length_filter_lt_of_mem_false _ ts e hemem hfail
    have hcond : ¬ (M ≤ (ts.filter (fun t => now₂ - t < W)).length) := by
      omega
    simp [check_rate_limit, checkRateList, hcond]

/-- Witness for C3 with `M = 2`, `W = 300`, attempts at times 0 and 1, a
refused third check at time 2, and an allowed check at time 300. -/
theorem c3_witness :
    check_rate_limit [("x", [0, 1])] "x" 2 300 2 =
      (false, rlUpdate [("x", [0, 1])] "x" (rlLookup [("x", [0, 1])] "x")) ∧
    (check_rate_limit [("x", [0, 1])] "x" 2 300 300).1 = true :=
  c3_rate_limit_window [("x", [0, 1])] "x" 2 300 2 300
    (by decide) (by decide) (by simp [rlLookup]) (by decide) (by decide)

/-- C1: for a token accepted by the format validator, encrypting on a vault
whose encryption rate budget is available yields a blob that, on the same
instance and whenever the decryption rate budget is available, decrypts back
to the original token; and decrypting any single-byte modification of that
blob always raises `SecurityError`, on every state and at every time. -/
theorem c1_vault_roundtrip_tamper (sm : SecurityManager) (tok : String)
    (now : ℤ) (i b : ℕ)
    (hval : validateTokenStr tok = true)
    (henc : (check_rate_limit sm.rate_limiter "encrypt_token" 10 300 now).1 = true) :
    ∃ blob sm₁,
      encrypt_token sm now tok = .ok (blob, sm₁) ∧
      (∀ n : ℤ,
        (check_rate_limit sm₁.rate_limiter "decrypt_token" 20 300 n).1 = true →
        ∃ sm₂, decrypt_token sm₁ n blob = .ok (tok, sm₂)) ∧
      (∀ s : SecurityManager, ∀ n : ℤ,
        decrypt_token s n (.corrupted blob i b) =
          .error ⟨"Decryption operation failed"⟩) := by
  refine ⟨fernetEncrypt (smKey sm)
      ⟨tok, now, sm.salt, "PBKDF2-HMAC-SHA256", 600000, "2.0"⟩,
    { sm with rate_limiter :=
        (check_rate_limit sm.rate_limiter "encrypt_token" 10 300 now).2 },
    ?_, ?_, ?_⟩
  · simp [encrypt_token, henc]
  · intro n hd
    refine ⟨{ sm with rate_limiter :=
        (check_rate_limit
          (check_rate_limit sm.rate_limiter "encrypt_token" 10 300 now).2
          "decrypt_token" 20 300 n).2 }, ?_⟩
    simp [decrypt_token, hd, fernetDecrypt, fernetEncrypt, smKey]
  · intro s n
    by_cases hr : (check_rate_limit s.rate_limiter "decrypt_token" 20 300 n).1 = true
    · simp [decrypt_token, hr, fernetDecrypt]
    · simp [decrypt_token, hr]

/-- Witness for C1 on a fresh vault and the valid example token. -/
theorem c1_witness :
    ∃ blob sm₁,
      encrypt_token ⟨"k", 0, []⟩ 0 "123456789:AAAAAAAAAAAAAAAAAAAAAAAAAAAAAAAAAAA" =
        .ok (blob, sm₁) ∧
      (∀ n : ℤ,
        (check_rate_limit sm₁.rate_limiter "decrypt_token" 20 300 n).1 = true →
        ∃ sm₂, decrypt_token sm₁ n blob =
          .ok ("123456789:AAAAAAAAAAAAAAAAAAAAAAAAAAAAAAAAAAA", sm₂)) ∧
      (∀ s : SecurityManager, ∀ n : ℤ,
        decrypt_token s n (.corrupted blob 0 0) =
          .error ⟨"Decryption operation failed"⟩) :=
  c1_vault_roundtrip_tamper ⟨"k", 0, []⟩ _ 0 0 0 (by decide) (by decide)

/-- C8: the cipher key is fixed at vault construction (from the instance
master key and its fresh salt) and decryption never re-derives it from the
salt stored in the envelope, so for two instances with different master keys
a blob encrypted by one always raises `SecurityError` when decrypted on the
other — an encrypted token does not survive a process restart. -/
theorem c8_cross_instance_decrypt_fails (sm₁ sm₂ : SecurityManager)
    (tok : String) (now : ℤ)
    (hmk : sm₁.master_key ≠ sm₂.master_key)
    (henc : (check_rate_limit sm₁.rate_limiter "encrypt_token" 10 300 now).1 = true) :
    ∃ blob sm₁',
      encrypt_token sm₁ now tok = .ok (blob, sm₁') ∧
      ∀ n : ℤ, decrypt_token sm₂ n blob =
        .error ⟨"Decryption operation failed"⟩ := by
  refine ⟨fernetEncrypt (smKey sm₁)
      ⟨tok, now, sm₁.salt, "PBKDF2-HMAC-SHA256", 600000, "2.0"⟩,
    { sm₁ with rate_limiter :=
        (check_rate_limit sm₁.rate_limiter "encrypt_token" 10 300 now).2 },
    ?_, ?_⟩
  · simp [encrypt_token, henc]
  · intro n
    by_cases hr : (check_rate_limit sm₂.rate_limiter "decrypt_token" 20 300 n).1 = true
    · simp [decrypt_token, hr, fernetDecrypt, fernetEncrypt, smKey,
        FKey.mk.injEq, hmk]
    · simp [decrypt_token, hr]

/-- Witness for C8: two concrete vault instances with master keys "k1" and
"k2". -/
theorem c8_witness :
    ∃ blob sm₁',
      encrypt_token ⟨"k1", 0, []⟩ 0 "tok" = .ok (blob, sm₁') ∧
      ∀ n : ℤ, decrypt_token ⟨"k2", 1, []⟩ n blob =
        .error ⟨"Decryption operation failed"⟩ :=
  c8_cross_instance_decrypt_fails ⟨"k1", 0, []⟩ ⟨"k2", 1, []⟩ "tok" 0
    (by decide) (by decide)
